import Mathlib

/-!
Verification development for the revel request router
(src/modules/pprof/app/controllers/pprof.go, package revel part).

The router source is shallowly embedded below.  Go strings are Lean
Strings; operations that Go performs on bytes are modelled on the
character list (`String.data`), which agrees with Go for the ASCII data
the router manipulates.  Go `map` values are modelled as association
lists with unique keys; Go runtime panics (out-of-range indexing and
failed type assertions) are modelled as explicit `panic` outcomes of the
result types, so that a function that can crash is visibly partial.

The `pathtree` package, the module registry (`ModuleByName`) and
`Controller.SetAction` are collaborators that are not part of the source
file; they are modelled from the specification, as marked on each
definition.
-/

set_option maxHeartbeats 1600000

namespace Revel

/-! ## Go string helpers -/

/-- Go `strings.Split` with a one-character separator, on character lists:
the list of chunks between occurrences of `sep` (never empty). -/
def splitSep (sep : Char) : List Char → List (List Char)
  | [] => [[]]
  | c :: cs =>
    if c = sep then [] :: splitSep sep cs
    else
      match splitSep sep cs with
      | h :: t => (c :: h) :: t
      | [] => [[c]]

/-- Go `strings.Split(s, sep)` for a one-character separator. -/
def goSplit (s : String) (sep : Char) : List String :=
  (splitSep sep s.data).map String.mk

/-- Go `strings.HasPrefix(s, c)` for a one-character prefix. -/
def startsWithChar (s : String) (c : Char) : Bool :=
  match s.data with
  | x :: _ => x = c
  | [] => false

/-- Go `strings.HasSuffix(s, c)` for a one-character suffix. -/
def endsWithChar (s : String) (c : Char) : Bool :=
  match s.data.reverse with
  | x :: _ => x = c
  | [] => false

/-- Go `strings.ToUpper` (ASCII). -/
def goToUpper (s : String) : String :=
  String.mk (s.data.map Char.toUpper)

/-- Go `strings.Join(parts, sep)` for a one-character separator. -/
def joinChar (c : Char) (parts : List String) : String :=
  String.mk (List.intercalate [c] (parts.map String.data))

/-- Go `s[:len(s)-1]`. -/
def dropLastChar (s : String) : String :=
  String.mk s.data.dropLast

/-! ## Decoded route-definition documents

`yaml.Unmarshal` decodes the routes file into `[]map[string]interface{}`.
A decoded value is modelled by `Yaml`, an entry of the top-level sequence
by an association list (`Entry`), and the whole document by `Doc`
(`none` is a nil entry, which the parser skips). -/

inductive Yaml where
  | str (s : String)
  | int (n : Int)
  | bool (b : Bool)
  | seq (xs : List Yaml)
deriving Repr

/-- One decoded mapping entry of the routes document. -/
abbrev Entry := List (String × Yaml)

/-- A decoded routes document. -/
abbrev Doc := List (Option Entry)

/-- Go map lookup `e[k]` on a decoded entry. -/
def efind (e : Entry) (k : String) : Option Yaml :=
  (e.find? (fun kv => kv.1 == k)).map (fun kv => kv.2)

/-! ## The Route record -/

/-- The `Route` struct of the source. -/
structure Route where
  Method : String
  Path : String
  Action : String
  ControllerName : String
  MethodName : String
  FixedParams : List String
  TreePath : String
  routesPath : String
  line : Nat
deriving DecidableEq, Repr

/-- `treePath` of the source: `"/" + method + path`, with a `*` method
replaced by the `:METHOD` wildcard token. -/
def treePath (method path : String) : String :=
  let m := if method = "*" then ":METHOD" else method
  String.mk ('/' :: (m.data ++ path.data))

/-- `NewRoute` of the source.  Note that a path without a leading slash
only causes an error log and an early return: the (already populated)
route value is still returned, with the action split skipped. -/
def NewRoute (method path action routesPath : String) (fixedArgs : List String) : Route :=
  let r : Route := {
    Method := goToUpper method
    Path := path
    Action := action
    ControllerName := ""
    MethodName := ""
    FixedParams := fixedArgs
    TreePath := treePath (goToUpper method) path
    routesPath := routesPath
    line := 0 }
  if startsWithChar path '/' = false then r
  else
    match goSplit action '.' with
    | [c, m] => { r with ControllerName := c, MethodName := m }
    | _ => r

/-! ## The match tree

Modelled from the spec: the `pathtree` package is an external
collaborator (`github.com/robfig/pathtree`), not part of the source
file.  Following spec section 4.3, the tree is keyed by the
slash-separated segments of `"/" + METHOD + path`; a segment is a
literal, a named capture (`:name`), or a trailing catch-all (`*name`);
lookup prefers an exact literal child at each level and otherwise falls
through to the named child (capturing the segment) or a trailing
catch-all (capturing the joined remainder); inserting two structurally
identical keys is a build-time error.  The tree is represented as the
list of inserted keys (parsed into segments) with their routes. -/

inductive Seg where
  | lit (s : List Char)
  | named (n : String)
  | catchAll (n : String)
deriving DecidableEq, Repr

/-- Modelled from the spec: classify one path segment of a tree key. -/
def segOf : List Char → Seg
  | ':' :: rest => .named (String.mk rest)
  | '*' :: rest => .catchAll (String.mk rest)
  | cs => .lit cs

/-- Modelled from the spec: the slash-separated segments of a tree key
(the leading slash contributes an empty first chunk, which is dropped). -/
def splitPath (s : String) : List (List Char) :=
  (splitSep '/' s.data).drop 1

/-- Modelled from the spec: parse a tree key into segments. -/
def parseSegs (s : String) : List Seg :=
  (splitPath s).map segOf

/-- Modelled from the spec: two keys are structurally identical when
their shapes coincide level by level (literals must be equal; any two
named captures coincide, as do any two catch-alls). -/
def sameShape : List Seg → List Seg → Bool
  | [], [] => true
  | .lit a :: t1, .lit b :: t2 => decide (a = b) && sameShape t1 t2
  | .named _ :: t1, .named _ :: t2 => sameShape t1 t2
  | .catchAll _ :: t1, .catchAll _ :: t2 => sameShape t1 t2
  | _, _ => false

/-- Modelled from the spec: the match tree, as its list of inserted
keys. -/
abbrev Tree := List (List Seg × Route)

/-- Modelled from the spec: `pathtree.Add`; `none` is the insertion
conflict error for a structurally identical existing key. -/
def treeAdd (t : Tree) (key : String) (r : Route) : Option Tree :=
  let segs := parseSegs key
  if t.any (fun e => sameShape e.1 segs) then none
  else some (t ++ [(segs, r)])

/-- An in-progress match candidate: remaining key segments, captures
accumulated so far (name, value), and the candidate route. -/
abbrev TEntry := List Seg × (List (String × String) × Route)

/-- Modelled from the spec: descend into a literal child. -/
def litStep (p : List Char) (e : TEntry) : Option TEntry :=
  match e with
  | (Seg.lit s :: t, caps, r) => if s = p then some (t, caps, r) else none
  | _ => none

/-- Modelled from the spec: descend into the named child, capturing the
actual segment under the declared name. -/
def wildStep (p : List Char) (e : TEntry) : Option TEntry :=
  match e with
  | (Seg.named n :: t, caps, r) => some (t, (caps ++ [(n, String.mk p)], r))
  | _ => none

/-- Modelled from the spec: a trailing catch-all captures the joined
remainder of the path as a single value. -/
def catchStep (p : List Char) (ps : List (List Char)) (e : TEntry) :
    Option (Route × List (String × String)) :=
  match e with
  | ([Seg.catchAll n], caps, r) =>
    some (r, caps ++ [(n, String.mk (List.intercalate ['/'] (p :: ps)))])
  | _ => none

/-- Modelled from the spec: `pathtree.Find`, returning the matched route
and the ordered (capture name, captured value) pairs.  At each level an
exact literal child is preferred; failing that the named child; failing
that a trailing catch-all. -/
def treeFind : List TEntry → List (List Char) → Option (Route × List (String × String))
  | es, [] =>
    match es.find? (fun e => e.1.isEmpty) with
    | some e => some (e.2.2, e.2.1)
    | none => none
  | es, p :: ps =>
    match treeFind (es.filterMap (litStep p)) ps with
    | some res => some res
    | none =>
      match treeFind (es.filterMap (wildStep p)) ps with
      | some res => some res
      | none => (es.filterMap (catchStep p ps)).head?

/-- Modelled from the spec: run `pathtree.Find` on a built tree. -/
def treeFindTop (t : Tree) (key : List (List Char)) :
    Option (Route × List (String × String)) :=
  treeFind (t.map (fun e => (e.1, ([], e.2)))) key

/-! ## Forward matching (`Router.Route`) -/

/-- The `RouteMatch` struct of the source; `Params` models `url.Values`. -/
structure RouteMatch where
  Action : String
  ControllerName : String
  MethodName : String
  FixedParams : List String
  Params : List (String × List String)
deriving DecidableEq, Repr

/-- The package-level `notFound` value (a `RouteMatch` with only the
`Action` field set). -/
def notFound : RouteMatch :=
  { Action := "404", ControllerName := "", MethodName := "", FixedParams := [], Params := [] }

/-- A Go computation that may panic. -/
inductive RRes (α : Type) where
  | ok (a : α)
  | panic (msg : String)
deriving DecidableEq, Repr

/-- The Go runtime message for out-of-range indexing, used for both
`s[0]` on an empty string and `nilSlice[0]`. -/
def idxOutOfRange : String := "runtime error: index out of range"

/-- Go map assignment `m[k] = v` on an association list. -/
def mapSet : List (String × List String) → String → List String → List (String × List String)
  | [], k, v => [(k, v)]
  | kv :: t, k, v => if kv.1 = k then (k, v) :: t else kv :: mapSet t k v

/-- Go map lookup on an association list (missing key gives `none`,
modelling the nil slice). -/
def mapGet : List (String × List String) → String → Option (List String)
  | [], _ => none
  | kv :: t, k => if kv.1 = k then some kv.2 else mapGet t k

/-- The parameter map built by `Router.Route` from the tree captures:
`params[wildcards[i]] = []string{expansions[i]}` in order. -/
def paramsOf (pairs : List (String × String)) : List (String × List String) :=
  pairs.foldl (fun m kv => mapSet m kv.1 [kv.2]) []

/-- The placeholder resolution of `Router.Route`: `name[0]` panics on an
empty name; for a `:`-placeholder, `params[name[1:]][0]` panics when the
capture is absent (indexing the nil slice). -/
def resolvePart (name : String) (params : List (String × List String)) : RRes String :=
  match name.data with
  | [] => .panic idxOutOfRange
  | c :: rest =>
    if c = ':' then
      match mapGet params (String.mk rest) with
      | some (v :: _) => .ok v
      | some [] => .panic idxOutOfRange
      | none => .panic idxOutOfRange
    else .ok name

/-- The part of `Router.Route` that runs after the tree lookup. -/
def finishMatch : Option (Route × List (String × String)) → RRes (Option RouteMatch)
  | none => .ok none
  | some (route, pairs) =>
    if route.Action = "404" then .ok (some notFound)
    else
      match resolvePart route.ControllerName (paramsOf pairs) with
      | .panic m => .panic m
      | .ok cN =>
        match resolvePart route.MethodName (paramsOf pairs) with
        | .panic m => .panic m
        | .ok mN =>
          .ok (some { Action := "", ControllerName := cN, MethodName := mN,
                      FixedParams := route.FixedParams, Params := paramsOf pairs })

/-- The `Router` struct: the authoritative route list and the match tree. -/
structure RouterState where
  Routes : List Route
  Tree : Tree
deriving DecidableEq, Repr

/-- The tree lookup performed by `Router.Route`:
`router.Tree.Find(treePath(req.Method, req.URL.Path))`. -/
def routeLookup (router : RouterState) (reqMethod reqPath : String) :
    Option (Route × List (String × String)) :=
  treeFindTop router.Tree (splitPath (treePath reqMethod reqPath))

/-- `Router.Route` of the source: tree lookup, explicit 404 handling,
placeholder resolution.  `.ok none` is the nil (no match) return. -/
def RouterState.route (router : RouterState) (reqMethod reqPath : String) :
    RRes (Option RouteMatch) :=
  finishMatch (routeLookup router reqMethod reqPath)

/-! ## Parsing the routes document -/

/-- The `Error` struct of the source (`revel.Error`), with the fields the
router populates via `routeError`. -/
structure RevelError where
  Title : String
  Description : String
  Path : String
  Line : Nat
  SourceLines : List String
deriving DecidableEq, Repr

/-- A parse outcome that went wrong: either a returned `*Error`, or a Go
runtime panic (the parser's unchecked type assertions). -/
inductive PErr where
  | rerr (e : RevelError)
  | panic (msg : String)
deriving DecidableEq, Repr

/-- Result of `parseRoutes`. -/
inductive ParseRes where
  | ok (routes : List Route)
  | error (e : PErr)
deriving DecidableEq, Repr

/-- `routeError` of the source for a fresh (non-`*Error`) error: wraps a
message with provenance; `SourceLines` is the split raw content. -/
def routeError (desc routesPath content : String) (line : Nat) : RevelError :=
  { Title := "Route validation error", Description := desc,
    Path := routesPath, Line := line, SourceLines := goSplit content '\n' }

/-- `requiredRouteOptions` of the source. -/
def requiredRouteOptions : List String := ["method", "path", "action"]

/-- The required-keys loop of `parseRoutes`: the first required key
missing from the entry, in declaration order. -/
def findMissing : List String → Entry → Option String
  | [], _ => none
  | k :: ks, e => if (efind e k).isNone then some k else findMissing ks e

/-- `routeMethodPattern` of the source:
`(?i)^(GET|POST|PUT|DELETE|PATCH|OPTIONS|HEAD|WS|\*)$`. -/
def routeMethodPattern (m : String) : Bool :=
  let u := goToUpper m
  u == "GET" || u == "POST" || u == "PUT" || u == "DELETE" || u == "PATCH" ||
    u == "OPTIONS" || u == "HEAD" || u == "WS" || u == "*"

/-- The Go panic message of a failed type assertion. -/
def typeAssertMsg : String := "interface conversion: interface is not the asserted type"

/-- Result of asserting one interface value. -/
inductive SRes where
  | ok (s : String)
  | panic (m : String)
deriving DecidableEq, Repr

/-- The unchecked type assertion `v.(string)` of the source: any
non-string value makes the parser panic. -/
def assertString : Option Yaml → SRes
  | some (.str s) => .ok s
  | _ => .panic typeAssertMsg

/-- Result of collecting the `params` values. -/
inductive PSRes where
  | ok (ps : List String)
  | panic (m : String)
deriving DecidableEq, Repr

/-- The loop body over `route["params"].([]interface{})`: each element
goes through the unchecked assertion `val.(string)`. -/
def collectParams : List Yaml → PSRes
  | [] => .ok []
  | .str s :: rest =>
    match collectParams rest with
    | .ok ps => .ok (s :: ps)
    | .panic m => .panic m
  | _ :: _ => .panic typeAssertMsg

/-- The `params` block of `parseRoutes`: absent key gives the nil slice;
a present key goes through the unchecked assertions
`route["params"].([]interface{})` and `val.(string)`. -/
def parseParams : Option Yaml → PSRes
  | none => .ok []
  | some (.seq xs) => collectParams xs
  | some _ => .panic typeAssertMsg

/-- Modelled from the spec: the registered-controller lookup behind
`Controller.SetAction` (the controller registry lives outside this
source file).  `cs c m = true` means action `c.m` resolves to a
registered controller method. -/
abbrev CtrlReg := String → String → Bool

/-- Result of `validateRoute` (which can itself panic: it indexes
`parts[0][0]` and `parts[1][0]` unchecked). -/
inductive VRes where
  | ok
  | verr (msg : String)
  | panic (m : String)
deriving DecidableEq, Repr

/-- `validateRoute` of the source: skip `404` actions, require a
two-part action, skip placeholder parts, otherwise check the action is
registered (the last step is modelled from the spec, see `CtrlReg`). -/
def validateRoute (cs : CtrlReg) (route : Route) : VRes :=
  if route.Action = "404" then .ok
  else
    match goSplit route.Action '.' with
    | [c, m] =>
      match c.data with
      | [] => .panic idxOutOfRange
      | c0 :: _ =>
        if c0 = ':' then .ok
        else
          match m.data with
          | [] => .panic idxOutOfRange
          | m0 :: _ =>
            if m0 = ':' then .ok
            else if cs c m then .ok
            else .verr ("failed to find action " ++ c ++ "." ++ m)
    | parts =>
      .verr ("Expected two parts (Controller.Action), but got " ++
        toString parts.length ++ ": " ++ route.Action)

/-- Modelled from the spec: the module registry and the recursive
parsing of an active module's own routes file (`ModuleByName` and
`parseRoutesFile`, both outside this source file).  The environment maps
a module name and the accumulated path prefix to the outcome of parsing
that module's routes file; `none` means the module is inactive. -/
abbrev ModuleEnv := String → String → Option ParseRes

/-- `getModuleRoutes` of the source: an inactive module silently
contributes zero routes; an active module's outcome (routes or error)
is passed through unchanged. -/
def getModuleRoutes (menv : ModuleEnv) (moduleName modPfx : String) : ParseRes :=
  match menv moduleName modPfx with
  | none => .ok []
  | some r => r

/-- `parseRoutes` of the source, over the decoded document.  Entry
processing order, error messages and the unchecked type assertions
follow the source; `content` is the raw file text (used only for error
provenance). -/
def parseRoutesList (cs : CtrlReg) (menv : ModuleEnv)
    (routesPath joinedPath content : String) (validate : Bool) : Doc → ParseRes
  | [] => .ok []
  | none :: rest => parseRoutesList cs menv routesPath joinedPath content validate rest
  | some route :: rest =>
    match efind route "import" with
    | some (.str moduleName) =>
      let pfx := match efind route "prefix" with
        | some (.str p) => p
        | _ => ""
      let jp := if endsWithChar joinedPath '/' && startsWithChar pfx '/' then
          dropLastChar joinedPath
        else joinedPath
      let modPfx := jp ++ pfx
      match getModuleRoutes menv moduleName modPfx with
      | .error e => .error e
      | .ok moduleRoutes =>
        match parseRoutesList cs menv routesPath joinedPath content validate rest with
        | .ok rs => .ok (moduleRoutes ++ rs)
        | .error e => .error e
    | _ =>
      match findMissing requiredRouteOptions route with
      | some k =>
        .error (.rerr (routeError ("Missing required route option \"" ++ k ++ "\"")
          routesPath content 0))
      | none =>
        match parseParams (efind route "params") with
        | .panic m => .error (.panic m)
        | .ok params =>
          match assertString (efind route "method") with
          | .panic m => .error (.panic m)
          | .ok method =>
            if routeMethodPattern method = false then
              .error (.rerr (routeError ("Unknown route method \"" ++ method ++ "\"")
                routesPath content 0))
            else
              match assertString (efind route "path") with
              | .panic m => .error (.panic m)
              | .ok path =>
                match assertString (efind route "action") with
                | .panic m => .error (.panic m)
                | .ok action =>
                  let r := NewRoute method path action routesPath params
                  if validate then
                    match validateRoute cs r with
                    | .panic m => .error (.panic m)
                    | .verr msg =>
                      .error (.rerr (routeError msg routesPath content 0))
                    | .ok =>
                      match parseRoutesList cs menv routesPath joinedPath content validate rest with
                      | .ok rs => .ok (r :: rs)
                      | .error e => .error e
                  else
                    match parseRoutesList cs menv routesPath joinedPath content validate rest with
                    | .ok rs => .ok (r :: rs)
                    | .error e => .error e

/-! ## Building the tree and refreshing -/

/-- Modelled from the spec: the conflict error message surfaced by
`pathtree.Add` for structurally identical keys. -/
def treeConflictMsg : String := "path conflicts with existing route"

/-- The loop of `Router.updateTree`, threading the tree being built in
place: each route's `TreePath` is added, a `GET` route is additionally
added under the equivalent `HEAD` key, and the first failing `Add`
returns with the partially built tree in place. -/
def updateTreeAux : Tree → List Route → Tree × Option PErr
  | t, [] => (t, none)
  | t, r :: rest =>
    match treeAdd t r.TreePath r with
    | none => (t, some (.rerr (routeError treeConflictMsg r.routesPath "" 0)))
    | some t1 =>
      if r.Method = "GET" then
        match treeAdd t1 (treePath "HEAD" r.Path) r with
        | none => (t1, some (.rerr (routeError treeConflictMsg r.routesPath "" 0)))
        | some t2 => updateTreeAux t2 rest
      else updateTreeAux t1 rest

/-- `Router.updateTree` of the source: `router.Tree = pathtree.New()`
followed by the insertion loop.  The tree field is replaced by whatever
the loop built, even when it returns an error. -/
def RouterState.updateTree (router : RouterState) : RouterState × Option PErr :=
  let (t, e) := updateTreeAux [] router.Routes
  ({ router with Tree := t }, e)

/-- `Router.Refresh` of the source, over the decoded document of the
router's routes file: `router.Routes, err = parseRoutesFile(...)` (which
assigns the route list even when parsing fails, leaving the nil list in
place), then `router.updateTree()`. -/
def RouterState.refresh (cs : CtrlReg) (menv : ModuleEnv)
    (routesPath content : String) (doc : Doc) (router : RouterState) :
    RouterState × Option PErr :=
  match parseRoutesList cs menv routesPath "" content true doc with
  | .error e => ({ router with Routes := [] }, some e)
  | .ok routes => RouterState.updateTree { router with Routes := routes }

/-! ## Reverse routing -/

/-- The `ActionDefinition` struct of the source. -/
structure ActionDefinition where
  Host : String
  Method : String
  Url : String
  Action : String
  Star : Bool
  Args : List (String × String)
deriving DecidableEq, Repr

/-- Go `map[string]string`, as an association list with unique keys. -/
abbrev SMap := List (String × String)

/-- Go map lookup `m[k]` (with presence flag). -/
def mget : SMap → String → Option String
  | [], _ => none
  | kv :: t, k => if kv.1 = k then some kv.2 else mget t k

/-- Go map assignment `m[k] = v`. -/
def mset : SMap → String → String → SMap
  | [], k, v => [(k, v)]
  | kv :: t, k, v => if kv.1 = k then (k, v) :: t else kv :: mset t k v

/-- Go `delete(m, k)`. -/
def mdel : SMap → String → SMap
  | [], _ => []
  | kv :: t, k => if kv.1 = k then mdel t k else kv :: mdel t k

/-- Whether a controller/method part is a `:` placeholder
(`name[0] == ':'`; only called on non-empty names). -/
def isWild (s : String) : Bool :=
  match s.data with
  | ':' :: _ => true
  | _ => false

/-- Go `url.QueryEscape` on one character (ASCII bytes): unreserved
characters kept, space to `+`, the rest percent-encoded. -/
def escapeChar (c : Char) : List Char :=
  if c.isAlphanum || c = '-' || c = '_' || c = '.' || c = '~' then [c]
  else if c = ' ' then ['+']
  else
    let n := c.toNat
    let hx := fun (d : Nat) => if d < 10 then Char.ofNat (48 + d) else Char.ofNat (55 + d)
    ['%', hx (n / 16 % 16), hx (n % 16)]

/-- Go `url.QueryEscape` (ASCII). -/
def queryEscape (s : String) : String :=
  String.mk (s.data.map escapeChar).flatten

/-- Bytewise string order used by `url.Values.Encode` (it sorts keys
with `sort.Strings`). -/
def leChars : List Char → List Char → Bool
  | [], _ => true
  | _ :: _, [] => false
  | a :: as, b :: bs => if a = b then leChars as bs else decide (a.toNat < b.toNat)

/-- Insertion step of the key sort. -/
def insertSorted (kv : String × String) : SMap → SMap
  | [] => [kv]
  | h :: t => if leChars kv.1.data h.1.data then kv :: h :: t else h :: insertSorted kv t

/-- Sort an association list by key (bytewise), as
`url.Values.Encode` does. -/
def sortByKey (m : SMap) : SMap :=
  m.foldr insertSorted []

/-- `url.Values.Encode` for the single-valued map `Reverse` builds:
keys sorted, each pair escaped and joined. -/
def encodeQuery (m : SMap) : String :=
  joinChar '&' ((sortByKey m).map (fun kv => queryEscape kv.1 ++ "=" ++ queryEscape kv.2))

/-- The path-element substitution loop of `Router.Reverse`: a `:name`
element is replaced by `argValues[name]`, falling back to the visible
`<nil>` placeholder (plus a logged error) when the argument is absent,
and the consumed argument is deleted from the map as it goes. -/
def substElements : List String → SMap → List String × SMap
  | [], args => ([], args)
  | el :: rest, args =>
    match el.data with
    | ':' :: nm =>
      let v := (mget args (String.mk nm)).getD "<nil>"
      let args2 := mdel args (String.mk nm)
      (v :: (substElements rest args2).1, (substElements rest args2).2)
    | _ =>
      (el :: (substElements rest args).1, (substElements rest args).2)

/-- The wildcard bindings `Router.Reverse` writes into the caller's
argument map for the matching route: a `:name` controller or method part
binds `name` to the target's controller/method. -/
def bindControllerWild (route : Route) (cN : String) (args : SMap) : SMap :=
  match route.ControllerName.data with
  | ':' :: nm => mset args (String.mk nm) cN
  | _ => args

/-- The method half of the wildcard bindings. -/
def bindMethodWild (route : Route) (mN : String) (args : SMap) : SMap :=
  match route.MethodName.data with
  | ':' :: nm => mset args (String.mk nm) mN
  | _ => args

/-- Both wildcard bindings, in source order (controller first). -/
def bindWilds (route : Route) (cN mN : String) (args : SMap) : SMap :=
  bindMethodWild route mN (bindControllerWild route cN args)

/-- The body `Router.Reverse` runs for the matching route, after the
wildcard bindings: substitute path elements, push the leftover arguments
into the query string, downgrade a `*` method to `GET` with the `Star`
flag, and return the (mutated) argument map itself as `Args`. -/
def reverseMatchRoute (route : Route) (action cN mN : String) (args : SMap) :
    ActionDefinition × SMap :=
  let args2 := bindWilds route cN mN args
  let pe := goSplit route.Path '/'
  let sres := substElements pe args2
  let url0 := joinChar '/' sres.1
  let url := if sres.2.isEmpty then url0 else url0 ++ "?" ++ encodeQuery sres.2
  ({ Host := "TODO",
     Method := if route.Method = "*" then "GET" else route.Method,
     Url := url, Action := action,
     Star := decide (route.Method = "*"), Args := sres.2 }, sres.2)

/-- The scan loop of `Router.Reverse`: skip routes without controller or
method names, skip non-matching routes, and run the match body for the
first matching route.  The second component is the caller's argument
map after the call (the map is mutated in place in Go). -/
def reverseScan : List Route → String → String → String → SMap →
    Option ActionDefinition × SMap
  | [], _, _, _, args => (none, args)
  | route :: rest, action, cN, mN, args =>
    if route.ControllerName = "" ∨ route.MethodName = "" then
      reverseScan rest action cN mN args
    else
      if (isWild route.ControllerName = false ∧ route.ControllerName ≠ cN) ∨
         (isWild route.MethodName = false ∧ route.MethodName ≠ mN) then
        reverseScan rest action cN mN args
      else
        match reverseMatchRoute route action cN mN args with
        | (ad, m2) => (some ad, m2)

/-- `Router.Reverse` of the source: the action must split into exactly
two dot-separated parts, then the route list is scanned in order. -/
def Reverse (routes : List Route) (action : String) (argValues : SMap) :
    Option ActionDefinition × SMap :=
  match goSplit action '.' with
  | [c, m] => reverseScan routes action c m argValues
  | _ => (none, argValues)

/-! ## Basic lemmas about the embedded definitions -/

theorem NewRoute_Method (m p a rp : String) (fx : List String) :
    (NewRoute m p a rp fx).Method = goToUpper m := by
  unfold NewRoute
  split
  · rfl
  · split <;> rfl

theorem NewRoute_Path (m p a rp : String) (fx : List String) :
    (NewRoute m p a rp fx).Path = p := by
  unfold NewRoute
  split
  · rfl
  · split <;> rfl

theorem NewRoute_Action (m p a rp : String) (fx : List String) :
    (NewRoute m p a rp fx).Action = a := by
  unfold NewRoute
  split
  · rfl
  · split <;> rfl

theorem NewRoute_TreePath (m p a rp : String) (fx : List String) :
    (NewRoute m p a rp fx).TreePath = treePath (goToUpper m) p := by
  unfold NewRoute
  split
  · rfl
  · split <;> rfl

theorem splitSep_ne_nil (sep : Char) (l : List Char) : splitSep sep l ≠ [] := by
  induction l with
  | nil => simp [splitSep]
  | cons c cs ih =>
    by_cases h : c = sep
    · simp [splitSep, h]
    · simp only [splitSep, if_neg h]
      rcases he : splitSep sep cs with _ | ⟨x, xs⟩
      · exact absurd he ih
      · simp

theorem splitSep_word (sep : Char) (w rest : List Char) (h : sep ∉ w) :
    splitSep sep (w ++ sep :: rest) = w :: splitSep sep rest := by
  induction w with
  | nil => simp [splitSep]
  | cons c cs ih =>
    have hc : c ≠ sep := fun hc => h (hc ▸ List.mem_cons_self c cs)
    have ih2 : splitSep sep (cs.append (sep :: rest)) = cs :: splitSep sep rest :=
      ih (fun hm => h (List.mem_cons_of_mem c hm))
    simp only [List.cons_append, splitSep, if_neg hc, ih2]

theorem splitPath_treePath (M : String) (hM : M ≠ "*") (hs : '/' ∉ M.data)
    (pd : List Char) :
    splitPath (treePath M (String.mk ('/' :: pd))) = M.data :: splitSep '/' pd := by
  unfold treePath splitPath
  rw [if_neg hM]
  show (splitSep '/' ('/' :: (M.data ++ '/' :: pd))).drop 1 = _
  rw [show splitSep '/' ('/' :: (M.data ++ '/' :: pd)) =
        [] :: splitSep '/' (M.data ++ '/' :: pd) by simp [splitSep]]
  rw [splitSep_word '/' M.data pd hs]
  rfl

theorem treeFind_nil (ps : List (List Char)) : treeFind [] ps = none := by
  induction ps with
  | nil => rfl
  | cons p ps ih => simp [treeFind, ih]

theorem treeFind_pair_first (a b : List Char) (S : List Seg) (r : Route)
    (ps : List (List Char)) (hab : a ≠ b) :
    treeFind [(Seg.lit a :: S, ([], r)), (Seg.lit b :: S, ([], r))] (a :: ps) =
      treeFind [(S, ([], r))] ps := by
  have hlits : [(Seg.lit a :: S, ([], r)), (Seg.lit b :: S, ([], r))].filterMap
      (litStep a) = [(S, ([], r))] := by
    simp [litStep, Ne.symm hab]
  have hwilds : [(Seg.lit a :: S, ([], r)), (Seg.lit b :: S, ([], r))].filterMap
      (wildStep a) = [] := by
    simp [wildStep]
  have hcatch : ∀ x, [(Seg.lit a :: S, ([], r)), (Seg.lit b :: S, ([], r))].filterMap
      (catchStep a ps) ≠ x :: [] → True := fun _ _ => trivial
  simp only [treeFind, hlits, hwilds, treeFind_nil]
  cases hx : treeFind [(S, ([], r))] ps <;> simp [hx, catchStep]

theorem treeFind_pair_second (a b : List Char) (S : List Seg) (r : Route)
    (ps : List (List Char)) (hab : a ≠ b) :
    treeFind [(Seg.lit a :: S, ([], r)), (Seg.lit b :: S, ([], r))] (b :: ps) =
      treeFind [(S, ([], r))] ps := by
  have hlits : [(Seg.lit a :: S, ([], r)), (Seg.lit b :: S, ([], r))].filterMap
      (litStep b) = [(S, ([], r))] := by
    simp [litStep, hab]
  have hwilds : [(Seg.lit a :: S, ([], r)), (Seg.lit b :: S, ([], r))].filterMap
      (wildStep b) = [] := by
    simp [wildStep]
  simp only [treeFind, hlits, hwilds, treeFind_nil]
  cases hx : treeFind [(S, ([], r))] ps <;> simp [hx, catchStep]

theorem mget_mdel_self (m : SMap) (k : String) : mget (mdel m k) k = none := by
  induction m with
  | nil => rfl
  | cons kv t ih =>
    by_cases h : kv.1 = k
    · simp [mdel, h, ih]
    · simp [mdel, mget, h, ih]

theorem mget_mdel_ne (m : SMap) (k k2 : String) (h : k ≠ k2) :
    mget (mdel m k2) k = mget m k := by
  induction m with
  | nil => rfl
  | cons kv t ih =>
    by_cases h1 : kv.1 = k2
    · have h2 : kv.1 ≠ k := by
        rw [h1]
        exact Ne.symm h
      simp [mdel, mget, h1, h2, ih, Ne.symm h]
    · by_cases h2 : kv.1 = k <;> simp [mdel, mget, h1, h2, ih, h]

theorem mget_mdel_none (m : SMap) (k k2 : String) (h : mget m k = none) :
    mget (mdel m k2) k = none := by
  induction m with
  | nil => rfl
  | cons kv t ih =>
    by_cases h1 : kv.1 = k
    · simp [mget, h1] at h
    · simp only [mget, if_neg h1] at h
      by_cases h2 : kv.1 = k2 <;> simp [mdel, mget, h1, h2, ih h]

theorem mdel_of_mget_none (m : SMap) (k : String) (h : mget m k = none) :
    mdel m k = m := by
  induction m with
  | nil => rfl
  | cons kv t ih =>
    by_cases h1 : kv.1 = k
    · simp [mget, h1] at h
    · simp only [mget, if_neg h1] at h
      simp [mdel, h1, ih h]

theorem mget_mset_self (m : SMap) (k v : String) : mget (mset m k v) k = some v := by
  induction m with
  | nil => simp [mset, mget]
  | cons kv t ih =>
    by_cases h : kv.1 = k
    · simp [mset, mget, h]
    · simp [mset, mget, h, ih]

theorem mget_mset_ne (m : SMap) (k k2 v : String) (h : k ≠ k2) :
    mget (mset m k2 v) k = mget m k := by
  induction m with
  | nil => simp [mset, mget, Ne.symm h]
  | cons kv t ih =>
    by_cases h1 : kv.1 = k2
    · have hk : kv.1 ≠ k := by
        rw [h1]
        exact Ne.symm h
      simp [mset, mget, h1, hk, Ne.symm h]
    · by_cases h2 : kv.1 = k <;> simp [mset, mget, h1, h2, ih, h]

theorem subst_none_preserved (elems : List String) (args : SMap) (k : String)
    (h : mget args k = none) : mget (substElements elems args).2 k = none := by
  induction elems generalizing args with
  | nil => exact h
  | cons el rest ih =>
    rcases he : el.data with _ | ⟨c, nm⟩
    · simpa [substElements, he] using ih args h
    · by_cases hc : c = ':'
      · subst hc
        simpa [substElements, he] using
          ih (mdel args (String.mk nm)) (mget_mdel_none args k (String.mk nm) h)
      · have : (match el.data with
            | ':' :: nm => True
            | _ => False) = False := by rw [he]; simp [hc]
        simpa [substElements, he, hc] using ih args h

theorem subst_absent (elems : List String) (args : SMap) (nm : List Char)
    (h : (String.mk (':' :: nm)) ∈ elems) :
    mget (substElements elems args).2 (String.mk nm) = none := by
  induction elems generalizing args with
  | nil => cases h
  | cons el rest ih =>
    rcases List.mem_cons.1 h with h1 | h1
    · have he : el.data = ':' :: nm := by rw [← h1]
      simp only [substElements, he]
      exact subst_none_preserved rest _ _
        (mget_mdel_self args (String.mk nm))
    · rcases he : el.data with _ | ⟨c, nm2⟩
      · simpa [substElements, he] using ih args h1
      · by_cases hc : c = ':'
        · subst hc
          simpa [substElements, he] using ih (mdel args (String.mk nm2)) h1
        · simpa [substElements, he, hc] using ih args h1

theorem subst_preserve (elems : List String) (args : SMap) (nm : List Char)
    (h : ∀ el ∈ elems, el.data ≠ ':' :: nm) :
    mget (substElements elems args).2 (String.mk nm) = mget args (String.mk nm) := by
  induction elems generalizing args with
  | nil => rfl
  | cons el rest ih =>
    have hrest : ∀ el2 ∈ rest, el2.data ≠ ':' :: nm :=
      fun el2 hm => h el2 (List.mem_cons_of_mem el hm)
    rcases he : el.data with _ | ⟨c, nm2⟩
    · simpa [substElements, he] using ih args hrest
    · by_cases hc : c = ':'
      · subst hc
        have hne : nm2 ≠ nm := fun hh => h el (List.mem_cons_self el rest) (by rw [he, hh])
        have hne2 : String.mk nm ≠ String.mk nm2 := by
          intro hh
          exact hne (by injection hh with hh2; exact hh2.symm)
        rw [show substElements (el :: rest) args =
              ((mget args (String.mk nm2)).getD "<nil>" ::
                  (substElements rest (mdel args (String.mk nm2))).1,
                (substElements rest (mdel args (String.mk nm2))).2) by
            simp [substElements, he]]
        rw [ih (mdel args (String.mk nm2)) hrest]
        exact mget_mdel_ne args (String.mk nm) (String.mk nm2) hne2
      · simpa [substElements, he, hc] using ih args hrest

/-- The condition under which a route is accepted by the scan of
`Router.Reverse` for a target controller/method pair. -/
def winsAt (route : Route) (cN mN : String) : Prop :=
  route.ControllerName ≠ "" ∧ route.MethodName ≠ "" ∧
  (isWild route.ControllerName = true ∨ route.ControllerName = cN) ∧
  (isWild route.MethodName = true ∨ route.MethodName = mN)

theorem scan_win (r : Route) (rest : List Route) (action cN mN : String) (args : SMap)
    (h : winsAt r cN mN) :
    reverseScan (r :: rest) action cN mN args =
      (some (reverseMatchRoute r action cN mN args).1,
        (reverseMatchRoute r action cN mN args).2) := by
  obtain ⟨h1, h2, h3, h4⟩ := h
  have hg1 : ¬ (r.ControllerName = "" ∨ r.MethodName = "") := by
    rintro (hh | hh)
    · exact h1 hh
    · exact h2 hh
  have hg2 : ¬ ((isWild r.ControllerName = false ∧ r.ControllerName ≠ cN) ∨
      (isWild r.MethodName = false ∧ r.MethodName ≠ mN)) := by
    rintro (⟨hw, hne⟩ | ⟨hw, hne⟩)
    · rcases h3 with h3 | h3
      · rw [h3] at hw
        cases hw
      · exact hne h3
    · rcases h4 with h4 | h4
      · rw [h4] at hw
        cases hw
      · exact hne h4
  simp only [reverseScan, if_neg hg1, if_neg hg2]

theorem scan_skip (r : Route) (rest : List Route) (action cN mN : String) (args : SMap)
    (h : r.ControllerName = "" ∨ r.MethodName = "" ∨
      (isWild r.ControllerName = false ∧ r.ControllerName ≠ cN) ∨
      (isWild r.MethodName = false ∧ r.MethodName ≠ mN)) :
    reverseScan (r :: rest) action cN mN args = reverseScan rest action cN mN args := by
  rcases h with h | h | h | h
  · simp [reverseScan, h]
  · simp only [reverseScan]
    rw [if_pos (Or.inr h)]
  · by_cases h0 : r.ControllerName = "" ∨ r.MethodName = ""
    · simp only [reverseScan]
      rw [if_pos h0]
    · simp only [reverseScan]
      rw [if_neg h0, if_pos (Or.inl h)]
  · by_cases h0 : r.ControllerName = "" ∨ r.MethodName = ""
    · simp only [reverseScan]
      rw [if_pos h0]
    · simp only [reverseScan]
      rw [if_neg h0, if_pos (Or.inr h)]

theorem reverseMatch_snd (r : Route) (action cN mN : String) (args : SMap) :
    (reverseMatchRoute r action cN mN args).2 =
      (substElements (goSplit r.Path '/') (bindWilds r cN mN args)).2 := rfl

theorem reverseMatch_args_alias (r : Route) (action cN mN : String) (args : SMap) :
    (reverseMatchRoute r action cN mN args).1.Args =
      (reverseMatchRoute r action cN mN args).2 := rfl

theorem reverseMatch_Method (r : Route) (action cN mN : String) (args : SMap) :
    (reverseMatchRoute r action cN mN args).1.Method =
      (if r.Method = "*" then "GET" else r.Method) := rfl

theorem reverseMatch_Star (r : Route) (action cN mN : String) (args : SMap) :
    (reverseMatchRoute r action cN mN args).1.Star = decide (r.Method = "*") := rfl

theorem bindControllerWild_wild (r : Route) (cN : String) (args : SMap)
    (cnm : List Char) (hC : r.ControllerName = String.mk (':' :: cnm)) :
    bindControllerWild r cN args = mset args (String.mk cnm) cN := by
  unfold bindControllerWild
  rw [hC]
  rfl

theorem bindMethodWild_get (r : Route) (mN : String) (args : SMap) (k : String)
    (hM : r.MethodName ≠ String.mk (':' :: k.data)) :
    mget (bindMethodWild r mN args) k = mget args k := by
  unfold bindMethodWild
  cases hmd : r.MethodName.data with
  | nil => rfl
  | cons c mtl =>
    by_cases hc : c = ':'
    · subst hc
      have hMeq : r.MethodName = String.mk (':' :: mtl) := by
        have h0 : r.MethodName = String.mk r.MethodName.data := rfl
        rw [h0, hmd]
      have hne : k ≠ String.mk mtl := by
        intro hh
        apply hM
        rw [hMeq, hh]
      show mget (mset args (String.mk mtl) mN) k = mget args k
      exact mget_mset_ne args k (String.mk mtl) mN hne
    · split
      · rename_i nm heq
        injection heq with h1 h2
        exact absurd h1 hc
      · rfl

theorem bindWilds_controller (r : Route) (cN mN : String) (args : SMap)
    (cnm : List Char) (hC : r.ControllerName = String.mk (':' :: cnm))
    (hM : r.MethodName ≠ String.mk (':' :: cnm)) :
    mget (bindWilds r cN mN args) (String.mk cnm) = some cN := by
  unfold bindWilds
  rw [bindMethodWild_get r mN _ (String.mk cnm) (by simpa using hM)]
  rw [bindControllerWild_wild r cN args cnm hC]
  exact mget_mset_self args (String.mk cnm) cN

theorem scan_method_star (routes : List Route) (action cN mN : String) (args : SMap)
    (ad : ActionDefinition) (m2 : SMap)
    (h : reverseScan routes action cN mN args = (some ad, m2)) :
    ∃ r, r ∈ routes ∧ ad.Method = (if r.Method = "*" then "GET" else r.Method) ∧
      (ad.Star = true ↔ r.Method = "*") := by
  induction routes generalizing args with
  | nil =>
    simp [reverseScan] at h
  | cons r rest ih =>
    by_cases h1 : r.ControllerName = "" ∨ r.MethodName = ""
    · rw [scan_skip r rest action cN mN args
        (h1.elim (fun a => Or.inl a) (fun b => Or.inr (Or.inl b)))] at h
      obtain ⟨r2, hmem, hrest⟩ := ih args h
      exact ⟨r2, List.mem_cons_of_mem r hmem, hrest⟩
    · by_cases h2 : (isWild r.ControllerName = false ∧ r.ControllerName ≠ cN) ∨
          (isWild r.MethodName = false ∧ r.MethodName ≠ mN)
      · rw [scan_skip r rest action cN mN args (Or.inr (Or.inr h2))] at h
        obtain ⟨r2, hmem, hrest⟩ := ih args h
        exact ⟨r2, List.mem_cons_of_mem r hmem, hrest⟩
      · push_neg at h1 h2
        have hw : winsAt r cN mN := by
          refine ⟨h1.1, h1.2, ?_, ?_⟩
          · rcases Decidable.em (isWild r.ControllerName = true) with hb | hb
            · exact Or.inl hb
            · exact Or.inr (h2.1 (by simpa using hb))
          · rcases Decidable.em (isWild r.MethodName = true) with hb | hb
            · exact Or.inl hb
            · exact Or.inr (h2.2 (by simpa using hb))
        rw [scan_win r rest action cN mN args hw] at h
        have had : ad = (reverseMatchRoute r action cN mN args).1 := by
          have := congrArg Prod.fst h
          simp at this
          exact this.symm
        refine ⟨r, List.mem_cons_self r rest, ?_, ?_⟩
        · rw [had, reverseMatch_Method]
        · rw [had, reverseMatch_Star]
          simp

/-! ## Concrete fixtures used by the claim theorems -/

/-- A controller registry on which every action resolves. -/
def csAll : CtrlReg := fun _ _ => true

/-- A module environment with no active modules. -/
def menv0 : ModuleEnv := fun _ _ => none

/-- A well-formed route entry (no `params` key). -/
def eUsers : Entry :=
  [("method", .str "GET"), ("path", .str "/users/:id"), ("action", .str "Users.Show")]

/-- A route entry missing the required `action` key. -/
def eNoAction : Entry := [("method", .str "GET"), ("path", .str "/a")]

/-- A route entry whose path does not start with a slash. -/
def eBadPath : Entry :=
  [("method", .str "GET"), ("path", .str "x"), ("action", .str "A.B")]

/-- A route entry used twice to force a tree-insertion conflict. -/
def ePing : Entry :=
  [("method", .str "GET"), ("path", .str "/ping"), ("action", .str "A.Ping")]

/-- A document whose parse succeeds but whose tree build fails. -/
def docBad : Doc := [some ePing, some ePing]

def rOld : Route := NewRoute "GET" "/old" "A.Old" "conf/routes" []

def rPing : Route := NewRoute "GET" "/ping" "A.Ping" "conf/routes" []

/-- A loaded router serving `GET /old`. -/
def router0 : RouterState := ⟨[rOld], (updateTreeAux [] [rOld]).1⟩

def rUsers : Route := NewRoute "GET" "/users/:id" "Users.Show" "conf/routes" []

def rStar : Route := NewRoute "*" "/ping" "Health.Ping" "conf/routes" []

def rPost : Route := NewRoute "POST" "/sub" "Sub.Make" "conf/routes" []

/-- A route whose placeholder controller has no matching capture in its
path. -/
def rPlaceholder : Route := NewRoute "GET" "/foo" ":c.Index" "conf/routes" []

/-- A route whose placeholder controller is captured by its path. -/
def rCapture : Route := NewRoute "GET" "/u/:c" ":c.Show" "conf/routes" []

/-- A route with a non-dotted action other than `404`. -/
def rOpaque : Route := NewRoute "GET" "/x" "foo" "conf/routes" []

/-- An explicit 404 route. -/
def rDead : Route := NewRoute "GET" "/dead" "404" "conf/routes" []

def rHeadLit : Route := NewRoute "HEAD" "/users/42" "B.X" "conf/routes" []

def rGetWild : Route := NewRoute "GET" "/users/:id" "A.Show" "conf/routes" []

def rNine : Route := NewRoute "GET" "/b/:id" ":c.Show" "conf/routes" []

/-! ## Claim C6 -/

/-- C6: for every route entry of the document, a missing required key
(`method`, `path` or `action`) makes parsing fail with the
`Missing required route option` error naming that key — in particular an
entry that has `method` and `path` but no `action` fails naming
`"action"` — while an absent optional `params` key causes no error (a
complete entry without `params` parses to its route). -/
theorem C6_missing_required_keys :
    (∀ (cs : CtrlReg) (menv : ModuleEnv) (rp jp ct : String) (v : Bool)
        (e : Entry) (rest : Doc) (ym yp : Yaml),
        (∀ s, efind e "import" ≠ some (.str s)) →
        efind e "method" = some ym → efind e "path" = some yp →
        efind e "action" = none →
        parseRoutesList cs menv rp jp ct v (some e :: rest) =
          .error (.rerr (routeError "Missing required route option \"action\"" rp ct 0))) ∧
    (∀ (cs : CtrlReg) (menv : ModuleEnv) (rp jp ct : String) (v : Bool)
        (e : Entry) (rest : Doc),
        (∀ s, efind e "import" ≠ some (.str s)) →
        efind e "method" = none →
        parseRoutesList cs menv rp jp ct v (some e :: rest) =
          .error (.rerr (routeError "Missing required route option \"method\"" rp ct 0))) ∧
    (∀ (cs : CtrlReg) (menv : ModuleEnv) (rp jp ct : String) (v : Bool)
        (e : Entry) (rest : Doc) (ym : Yaml),
        (∀ s, efind e "import" ≠ some (.str s)) →
        efind e "method" = some ym → efind e "path" = none →
        parseRoutesList cs menv rp jp ct v (some e :: rest) =
          .error (.rerr (routeError "Missing required route option \"path\"" rp ct 0))) ∧
    (∀ (cs : CtrlReg) (menv : ModuleEnv) (rp jp ct : String) (e : Entry)
        (m p a : String),
        (∀ s, efind e "import" ≠ some (.str s)) →
        efind e "method" = some (.str m) → efind e "path" = some (.str p) →
        efind e "action" = some (.str a) → efind e "params" = none →
        routeMethodPattern m = true →
        parseRoutesList cs menv rp jp ct false [some e] = .ok [NewRoute m p a rp []]) := by
  refine ⟨?_, ?_, ?_, ?_⟩
  · intro cs menv rp jp ct v e rest ym yp himp hm hp ha
    rcases hi : efind e "import" with _ | y
    · simp [parseRoutesList, hi, findMissing, requiredRouteOptions, hm, hp, ha]
    · rcases y with st | n | b | xs
      · exact absurd hi (himp st)
      · simp [parseRoutesList, hi, findMissing, requiredRouteOptions, hm, hp, ha]
      · simp [parseRoutesList, hi, findMissing, requiredRouteOptions, hm, hp, ha]
      · simp [parseRoutesList, hi, findMissing, requiredRouteOptions, hm, hp, ha]
  · intro cs menv rp jp ct v e rest himp hm
    rcases hi : efind e "import" with _ | y
    · simp [parseRoutesList, hi, findMissing, requiredRouteOptions, hm]
    · rcases y with st | n | b | xs
      · exact absurd hi (himp st)
      · simp [parseRoutesList, hi, findMissing, requiredRouteOptions, hm]
      · simp [parseRoutesList, hi, findMissing, requiredRouteOptions, hm]
      · simp [parseRoutesList, hi, findMissing, requiredRouteOptions, hm]
  · intro cs menv rp jp ct v e rest ym himp hm hp
    rcases hi : efind e "import" with _ | y
    · simp [parseRoutesList, hi, findMissing, requiredRouteOptions, hm, hp]
    · rcases y with st | n | b | xs
      · exact absurd hi (himp st)
      · simp [parseRoutesList, hi, findMissing, requiredRouteOptions, hm, hp]
      · simp [parseRoutesList, hi, findMissing, requiredRouteOptions, hm, hp]
      · simp [parseRoutesList, hi, findMissing, requiredRouteOptions, hm, hp]
  · intro cs menv rp jp ct e m p a himp hm hp ha hpar hpat
    rcases hi : efind e "import" with _ | y
    · simp [parseRoutesList, hi, findMissing, requiredRouteOptions, hm, hp, ha, hpar,
        parseParams, assertString, hpat]
    · rcases y with st | n | b | xs
      · exact absurd hi (himp st)
      · simp [parseRoutesList, hi, findMissing, requiredRouteOptions, hm, hp, ha, hpar,
          parseParams, assertString, hpat]
      · simp [parseRoutesList, hi, findMissing, requiredRouteOptions, hm, hp, ha, hpar,
          parseParams, assertString, hpat]
      · simp [parseRoutesList, hi, findMissing, requiredRouteOptions, hm, hp, ha, hpar,
          parseParams, assertString, hpat]

/-- C6 witness: a concrete entry missing `action` fails with the error
naming `"action"`, and a concrete complete entry without `params`
parses. -/
theorem C6_missing_required_keys_witness :
    parseRoutesList csAll menv0 "conf/routes" "" "c" true [some eNoAction] =
      .error (.rerr (routeError "Missing required route option \"action\""
        "conf/routes" "c" 0)) ∧
    parseRoutesList csAll menv0 "conf/routes" "" "c" false [some eUsers] =
      .ok [NewRoute "GET" "/users/:id" "Users.Show" "conf/routes" []] := by
  constructor
  · refine C6_missing_required_keys.1 csAll menv0 "conf/routes" "" "c" true eNoAction []
      (.str "GET") (.str "/a") ?_ rfl rfl rfl
    intro s h
    rw [show efind eNoAction "import" = none from rfl] at h
    cases h
  · refine C6_missing_required_keys.2.2.2 csAll menv0 "conf/routes" "" "c" eUsers
      "GET" "/users/:id" "Users.Show" ?_ rfl rfl rfl rfl rfl
    intro s h
    rw [show efind eUsers "import" = none from rfl] at h
    cases h

/-! ## Claim C10 -/

/-- C10: parsing is total only for well-typed documents — a route entry
whose `method`, `path` or `action` value is not a string, or whose
`params` value is not a sequence of strings, makes `parseRoutes` crash
with a type-assertion panic instead of returning a parse error. -/
theorem C10_parse_panics_on_ill_typed_values :
    parseRoutesList csAll menv0 "conf/routes" "" "c" true
        [some [("method", .int 1), ("path", .str "/a"), ("action", .str "A.B")]] =
      .error (.panic typeAssertMsg) ∧
    parseRoutesList csAll menv0 "conf/routes" "" "c" true
        [some [("method", .str "GET"), ("path", .int 2), ("action", .str "A.B")]] =
      .error (.panic typeAssertMsg) ∧
    parseRoutesList csAll menv0 "conf/routes" "" "c" true
        [some [("method", .str "GET"), ("path", .str "/a"), ("action", .bool true)]] =
      .error (.panic typeAssertMsg) ∧
    parseRoutesList csAll menv0 "conf/routes" "" "c" true
        [some [("method", .str "GET"), ("path", .str "/a"), ("action", .str "A.B"),
          ("params", .str "x")]] =
      .error (.panic typeAssertMsg) ∧
    parseRoutesList csAll menv0 "conf/routes" "" "c" true
        [some [("method", .str "GET"), ("path", .str "/a"), ("action", .str "A.B"),
          ("params", .seq [.int 3])]] =
      .error (.panic typeAssertMsg) :=
  ⟨rfl, rfl, rfl, rfl, rfl⟩

/-! ## Claim C2 -/

/-- C2 counterexample: the pattern `x` does not start with `/`, yet
`NewRoute` produces a route value and parsing a document containing it
succeeds (no `MalformedPathError`, no aborted refresh). -/
theorem C2_counterexample_no_failure :
    startsWithChar "x" '/' = false ∧
    parseRoutesList csAll menv0 "conf/routes" "" "c" true [some eBadPath] =
      .ok [NewRoute "GET" "x" "A.B" "conf/routes" []] ∧
    (RouterState.refresh csAll menv0 "conf/routes" "c" [some eBadPath] router0).2 = none :=
  ⟨rfl, rfl, rfl⟩

/-- C2 (amended): constructing a route whose pattern does not start with
`/` does not fail — it logs and returns a fully populated route value
whose controller and method names are left empty (the action split is
skipped) — and parsing a document containing such a pattern succeeds. -/
theorem C2_no_slash_still_constructs :
    (∀ (method path action rp : String) (fx : List String),
        startsWithChar path '/' = false →
        NewRoute method path action rp fx =
          { Method := goToUpper method, Path := path, Action := action,
            ControllerName := "", MethodName := "", FixedParams := fx,
            TreePath := treePath (goToUpper method) path, routesPath := rp, line := 0 }) ∧
    parseRoutesList csAll menv0 "conf/routes" "" "c" true [some eBadPath] =
      .ok [NewRoute "GET" "x" "A.B" "conf/routes" []] := by
  constructor
  · intro method path action rp fx h
    unfold NewRoute
    rw [if_pos h]
  · rfl

/-- C2 witness: the amended construction fact at the concrete pattern
`x`. -/
theorem C2_no_slash_still_constructs_witness :
    NewRoute "GET" "x" "A.B" "conf/routes" [] =
      { Method := goToUpper "GET", Path := "x", Action := "A.B",
        ControllerName := "", MethodName := "", FixedParams := [],
        TreePath := treePath (goToUpper "GET") "x", routesPath := "conf/routes",
        line := 0 } :=
  C2_no_slash_still_constructs.1 "GET" "x" "A.B" "conf/routes" [] rfl

/-! ## Claim C7 -/

/-- C7: in `Router.Reverse`, a `:name` path segment whose argument is
absent from the argument map is substituted with the visible `<nil>`
placeholder (the map is left unchanged for that segment), the scan still
returns an ActionDefinition for the winning route, and concretely the
reverse of a one-argument route with an empty argument map yields the
best-effort URL `/users/<nil>`. -/
theorem C7_missing_arg_placeholder :
    (∀ (nm : List Char) (rest : List String) (args : SMap),
        mget args (String.mk nm) = none →
        substElements (String.mk (':' :: nm) :: rest) args =
          ("<nil>" :: (substElements rest args).1, (substElements rest args).2)) ∧
    (∀ (r : Route) (rest : List Route) (action cN mN : String) (args : SMap),
        winsAt r cN mN →
        ∃ ad m2, reverseScan (r :: rest) action cN mN args = (some ad, m2)) ∧
    Reverse [rUsers] "Users.Show" [] =
      (some { Host := "TODO", Method := "GET", Url := "/users/<nil>",
              Action := "Users.Show", Star := false, Args := [] }, []) := by
  refine ⟨?_, ?_, rfl⟩
  · intro nm rest args h
    have he : substElements (String.mk (':' :: nm) :: rest) args =
        ((mget args (String.mk nm)).getD "<nil>" ::
            (substElements rest (mdel args (String.mk nm))).1,
          (substElements rest (mdel args (String.mk nm))).2) := rfl
    rw [he, h, mdel_of_mget_none args (String.mk nm) h]
    rfl
  · intro r rest action cN mN args h
    rw [scan_win r rest action cN mN args h]
    exact ⟨_, _, rfl⟩

/-- C7 witness: the substitution fact at a concrete missing argument,
and the scan-totality fact at a concrete winning route. -/
theorem C7_missing_arg_placeholder_witness :
    substElements (String.mk (':' :: ['i', 'd']) :: []) [("zz", "q")] =
      ("<nil>" :: (substElements [] [("zz", "q")]).1,
        (substElements [] [("zz", "q")]).2) ∧
    (∃ ad m2, reverseScan [rUsers] "Users.Show" "Users" "Show" [] = (some ad, m2)) := by
  constructor
  · exact C7_missing_arg_placeholder.1 ['i', 'd'] [] [("zz", "q")] rfl
  · exact C7_missing_arg_placeholder.2.1 rUsers [] "Users.Show" "Users" "Show" []
      ⟨by decide, by decide, Or.inr (by decide), Or.inr (by decide)⟩

/-! ## Claim C8 -/

/-- C8: whenever `Router.Reverse` returns an ActionDefinition, the
winning route determines its method and wildcard flag: a `*` route
yields method `GET` with the `Star` flag set, any other route yields its
declared method with the flag unset; concretely a `*` route reverses to
`GET` with `Star = true` and a `POST` route to `POST` with
`Star = false`. -/
theorem C8_star_resolves_to_get :
    (∀ (routes : List Route) (action : String) (args : SMap)
        (ad : ActionDefinition) (m2 : SMap),
        Reverse routes action args = (some ad, m2) →
        ∃ r, r ∈ routes ∧ ad.Method = (if r.Method = "*" then "GET" else r.Method) ∧
          (ad.Star = true ↔ r.Method = "*")) ∧
    Reverse [rStar] "Health.Ping" [] =
      (some { Host := "TODO", Method := "GET", Url := "/ping",
              Action := "Health.Ping", Star := true, Args := [] }, []) ∧
    Reverse [rPost] "Sub.Make" [] =
      (some { Host := "TODO", Method := "POST", Url := "/sub",
              Action := "Sub.Make", Star := false, Args := [] }, []) := by
  refine ⟨?_, rfl, rfl⟩
  intro routes action args ad m2 h
  unfold Reverse at h
  rcases hsp : goSplit action '.' with _ | ⟨c, _ | ⟨m, _ | ⟨x, xs⟩⟩⟩ <;> rw [hsp] at h
  · simp at h
  · simp at h
  · exact scan_method_star routes action c m args ad m2 h
  · simp at h

/-- C8 witness: the scan fact applied at a concrete successful reverse
lookup. -/
theorem C8_star_resolves_to_get_witness :
    ∃ r, r ∈ [rStar] ∧
      ({ Host := "TODO", Method := "GET", Url := "/ping", Action := "Health.Ping",
         Star := true, Args := [] } : ActionDefinition).Method =
        (if r.Method = "*" then "GET" else r.Method) ∧
      (({ Host := "TODO", Method := "GET", Url := "/ping", Action := "Health.Ping",
          Star := true, Args := [] } : ActionDefinition).Star = true ↔ r.Method = "*") :=
  C8_star_resolves_to_get.1 [rStar] "Health.Ping" []
    { Host := "TODO", Method := "GET", Url := "/ping", Action := "Health.Ping",
      Star := true, Args := [] } [] rfl

/-! ## Claim C9 -/

/-- C9: `Router.Reverse` mutates the caller's argument map and aliases
it: for the winning route the returned ActionDefinition's `Args` is
exactly the caller's map after the call; every `:name` path segment's
argument has been deleted from that map; and a wildcard controller
binding has been written into it (when no path segment consumes it). -/
theorem C9_reverse_mutates_caller_map :
    (∀ (r : Route) (rest : List Route) (action cN mN : String) (args : SMap),
        winsAt r cN mN →
        ∃ ad, reverseScan (r :: rest) action cN mN args = (some ad, ad.Args)) ∧
    (∀ (r : Route) (rest : List Route) (action cN mN : String) (args : SMap)
        (nm : List Char),
        winsAt r cN mN →
        (String.mk (':' :: nm)) ∈ goSplit r.Path '/' →
        mget (reverseScan (r :: rest) action cN mN args).2 (String.mk nm) = none) ∧
    (∀ (r : Route) (rest : List Route) (action cN mN : String) (args : SMap)
        (cnm : List Char),
        winsAt r cN mN →
        r.ControllerName = String.mk (':' :: cnm) →
        (∀ el ∈ goSplit r.Path '/', el.data ≠ ':' :: cnm) →
        r.MethodName ≠ String.mk (':' :: cnm) →
        mget (reverseScan (r :: rest) action cN mN args).2 (String.mk cnm) = some cN) := by
  refine ⟨?_, ?_, ?_⟩
  · intro r rest action cN mN args h
    rw [scan_win r rest action cN mN args h]
    exact ⟨(reverseMatchRoute r action cN mN args).1,
      by rw [reverseMatch_args_alias]⟩
  · intro r rest action cN mN args nm h hmem
    rw [scan_win r rest action cN mN args h]
    rw [reverseMatch_snd]
    exact subst_absent (goSplit r.Path '/') (bindWilds r cN mN args) nm hmem
  · intro r rest action cN mN args cnm h hC hnone hM
    rw [scan_win r rest action cN mN args h]
    rw [reverseMatch_snd]
    rw [subst_preserve (goSplit r.Path '/') (bindWilds r cN mN args) cnm hnone]
    exact bindWilds_controller r cN mN args cnm hC hM

/-- C9 witness: the three mutation facts at a concrete winning route
`GET /b/:id` with action `:c.Show`, target `Foo.Show` and argument map
`{id: 7, zz: q}`. -/
theorem C9_reverse_mutates_caller_map_witness :
    (∃ ad, reverseScan [rNine] "Foo.Show" "Foo" "Show" [("id", "7"), ("zz", "q")] =
      (some ad, ad.Args)) ∧
    mget (reverseScan [rNine] "Foo.Show" "Foo" "Show" [("id", "7"), ("zz", "q")]).2
      (String.mk ['i', 'd']) = none ∧
    mget (reverseScan [rNine] "Foo.Show" "Foo" "Show" [("id", "7"), ("zz", "q")]).2
      (String.mk ['c']) = some "Foo" := by
  have hw : winsAt rNine "Foo" "Show" :=
    ⟨by decide, by decide, Or.inl (by decide), Or.inr (by decide)⟩
  refine ⟨?_, ?_, ?_⟩
  · exact C9_reverse_mutates_caller_map.1 rNine [] "Foo.Show" "Foo" "Show"
      [("id", "7"), ("zz", "q")] hw
  · exact C9_reverse_mutates_caller_map.2.1 rNine [] "Foo.Show" "Foo" "Show"
      [("id", "7"), ("zz", "q")] ['i', 'd'] hw (by decide)
  · exact C9_reverse_mutates_caller_map.2.2 rNine [] "Foo.Show" "Foo" "Show"
      [("id", "7"), ("zz", "q")] ['c'] hw rfl (by decide) (by decide)

/-! ## Claims C3 and C4 -/

theorem resolvePart_wild_found (params : List (String × List String)) (cn : List Char)
    (v : String) (vs : List String)
    (h : mapGet params (String.mk cn) = some (v :: vs)) :
    resolvePart (String.mk (':' :: cn)) params = .ok v := by
  have hred : resolvePart (String.mk (':' :: cn)) params =
      (match mapGet params (String.mk cn) with
        | some (v2 :: _) => RRes.ok v2
        | some [] => RRes.panic idxOutOfRange
        | none => RRes.panic idxOutOfRange) := rfl
  rw [hred, h]

theorem resolvePart_wild_missing (params : List (String × List String)) (cn : List Char)
    (h : mapGet params (String.mk cn) = none) :
    resolvePart (String.mk (':' :: cn)) params = .panic idxOutOfRange := by
  have hred : resolvePart (String.mk (':' :: cn)) params =
      (match mapGet params (String.mk cn) with
        | some (v2 :: _) => RRes.ok v2
        | some [] => RRes.panic idxOutOfRange
        | none => RRes.panic idxOutOfRange) := rfl
  rw [hred, h]

theorem resolvePart_plain (params : List (String × List String)) (m0 : Char)
    (mtl : List Char) (h : m0 ≠ ':') :
    resolvePart (String.mk (m0 :: mtl)) params = .ok (String.mk (m0 :: mtl)) := by
  have hred : resolvePart (String.mk (m0 :: mtl)) params =
      (if m0 = ':' then
        (match mapGet params (String.mk mtl) with
          | some (v2 :: _) => RRes.ok v2
          | some [] => RRes.panic idxOutOfRange
          | none => RRes.panic idxOutOfRange)
      else .ok (String.mk (m0 :: mtl))) := rfl
  rw [hred, if_neg h]

theorem resolvePart_empty (params : List (String × List String)) :
    resolvePart "" params = .panic idxOutOfRange := rfl

/-- C3 (amended): for a matched route whose controller part is a `:`
placeholder, `Router.Route` resolves it from the captured parameters
when the capture is present; when the needed capture is absent it panics
(indexing the nil parameter slice) — the process crashes rather than a
failure outcome being returned. -/
theorem C3_placeholder_capture :
    (∀ (router : RouterState) (m p : String) (r : Route)
        (pairs : List (String × String)) (cn : List Char) (v : String)
        (vs : List String) (m0 : Char) (mtl : List Char),
        routeLookup router m p = some (r, pairs) →
        r.Action ≠ "404" →
        r.ControllerName = String.mk (':' :: cn) →
        mapGet (paramsOf pairs) (String.mk cn) = some (v :: vs) →
        r.MethodName = String.mk (m0 :: mtl) →
        m0 ≠ ':' →
        router.route m p =
          .ok (some { Action := "", ControllerName := v,
                      MethodName := r.MethodName, FixedParams := r.FixedParams,
                      Params := paramsOf pairs })) ∧
    (∀ (router : RouterState) (m p : String) (r : Route)
        (pairs : List (String × String)) (cn : List Char),
        routeLookup router m p = some (r, pairs) →
        r.Action ≠ "404" →
        r.ControllerName = String.mk (':' :: cn) →
        mapGet (paramsOf pairs) (String.mk cn) = none →
        router.route m p = .panic idxOutOfRange) := by
  constructor
  · intro router m p r pairs cn v vs m0 mtl hlook hact hC hcap hM hm0
    unfold RouterState.route
    rw [hlook]
    simp only [finishMatch, if_neg hact, hC, hM,
      resolvePart_wild_found (paramsOf pairs) cn v vs hcap,
      resolvePart_plain (paramsOf pairs) m0 mtl hm0]
  · intro router m p r pairs cn hlook hact hC hcap
    unfold RouterState.route
    rw [hlook]
    simp only [finishMatch, if_neg hact, hC,
      resolvePart_wild_missing (paramsOf pairs) cn hcap]

def rtrCapture : RouterState := ⟨[rCapture], (updateTreeAux [] [rCapture]).1⟩

def rtrPlaceholder : RouterState :=
  ⟨[rPlaceholder], (updateTreeAux [] [rPlaceholder]).1⟩

def rtrOpaque : RouterState := ⟨[rOpaque], (updateTreeAux [] [rOpaque]).1⟩

def rtrDead : RouterState := ⟨[rDead], (updateTreeAux [] [rDead]).1⟩

/-- C3 witness: the resolution facts at a concrete captured placeholder
(`GET /u/:c` with action `:c.Show`, request `/u/x`) and at a concrete
absent capture (`GET /foo` with action `:c.Index`). -/
theorem C3_placeholder_capture_witness :
    RouterState.route rtrCapture "GET" "/u/x" =
      .ok (some { Action := "", ControllerName := "x",
                  MethodName := rCapture.MethodName,
                  FixedParams := rCapture.FixedParams,
                  Params := paramsOf [("c", "x")] }) ∧
    RouterState.route rtrPlaceholder "GET" "/foo" = .panic idxOutOfRange := by
  constructor
  · exact C3_placeholder_capture.1 rtrCapture "GET" "/u/x" rCapture [("c", "x")]
      ['c'] "x" [] 'S' ['h', 'o', 'w'] rfl (by decide) rfl rfl rfl (by decide)
  · exact C3_placeholder_capture.2 rtrPlaceholder "GET" "/foo" rPlaceholder []
      ['c'] rfl (by decide) rfl rfl

/-- C3 counterexample: for the route `GET /foo` with action `:c.Index`
(which builds without error), the forward lookup panics instead of
returning a failure outcome. -/
theorem C3_counterexample_panic :
    (updateTreeAux [] [rPlaceholder]).2 = none ∧
    RouterState.route rtrPlaceholder "GET" "/foo" = .panic idxOutOfRange :=
  ⟨rfl, rfl⟩

/-- C4 (amended): an action that is not `404` and does not split into
exactly two dot-separated parts leaves both controller and method names
empty at construction, but a forward lookup matching such a route panics
(indexing the empty controller name) instead of returning a result; only
the exact `"404"` action is treated as a terminal action (the distinct
`notFound` result). -/
theorem C4_opaque_action :
    (∀ (method path action rp : String) (fx : List String),
        startsWithChar path '/' = true →
        (goSplit action '.').length ≠ 2 →
        (NewRoute method path action rp fx).ControllerName = "" ∧
          (NewRoute method path action rp fx).MethodName = "") ∧
    (∀ (router : RouterState) (m p : String) (r : Route)
        (pairs : List (String × String)),
        routeLookup router m p = some (r, pairs) →
        r.Action ≠ "404" →
        r.ControllerName = "" →
        router.route m p = .panic idxOutOfRange) ∧
    (∀ (router : RouterState) (m p : String) (r : Route)
        (pairs : List (String × String)),
        routeLookup router m p = some (r, pairs) →
        r.Action = "404" →
        router.route m p = .ok (some notFound)) := by
  refine ⟨?_, ?_, ?_⟩
  · intro method path action rp fx hs hlen
    unfold NewRoute
    rw [if_neg (by simp [hs])]
    rcases hsp : goSplit action '.' with _ | ⟨c, _ | ⟨m2, _ | ⟨x, xs⟩⟩⟩
    · exact ⟨rfl, rfl⟩
    · exact ⟨rfl, rfl⟩
    · rw [hsp] at hlen
      exact absurd rfl hlen
    · exact ⟨rfl, rfl⟩
  · intro router m p r pairs hlook hact hC
    unfold RouterState.route
    rw [hlook]
    simp only [finishMatch, if_neg hact, hC, resolvePart_empty]
  · intro router m p r pairs hlook hact
    unfold RouterState.route
    rw [hlook]
    simp only [finishMatch, if_pos hact]

/-- C4 witness: the construction fact at the concrete action `foo`, the
panic at the concrete matching lookup, and the `404` terminal case. -/
theorem C4_opaque_action_witness :
    ((NewRoute "GET" "/x" "foo" "conf/routes" []).ControllerName = "" ∧
      (NewRoute "GET" "/x" "foo" "conf/routes" []).MethodName = "") ∧
    RouterState.route rtrOpaque "GET" "/x" = .panic idxOutOfRange ∧
    RouterState.route rtrDead "GET" "/dead" = .ok (some notFound) := by
  refine ⟨?_, ?_, ?_⟩
  · exact C4_opaque_action.1 "GET" "/x" "foo" "conf/routes" [] rfl (by decide)
  · exact C4_opaque_action.2.1 rtrOpaque "GET" "/x" rOpaque [] rfl (by decide) rfl
  · exact C4_opaque_action.2.2 rtrDead "GET" "/dead" rDead [] rfl rfl

/-- C4 counterexample: the route `GET /x` with action `foo` builds
without error, but the matching forward lookup panics instead of
returning a result. -/
theorem C4_counterexample_panic :
    (updateTreeAux [] [rOpaque]).2 = none ∧
    RouterState.route rtrOpaque "GET" "/x" = .panic idxOutOfRange :=
  ⟨rfl, rfl⟩

/-! ## Claim C5 -/

/-- C5 counterexample: with routes `HEAD /users/42 -> B.X` and
`GET /users/:id -> A.Show` the tree builds without error, the `GET`
route is additionally inserted under `HEAD`, yet the GET and HEAD
lookups of `/users/42` return different actions (the explicit HEAD route
shadows the inserted copy), so the two lookups do not always agree. -/
theorem C5_counterexample_shadowed_head :
    (updateTreeAux [] [rHeadLit, rGetWild]).2 = none ∧
    RouterState.route ⟨[rHeadLit, rGetWild], (updateTreeAux [] [rHeadLit, rGetWild]).1⟩
        "GET" "/users/42" =
      .ok (some { Action := "", ControllerName := "A", MethodName := "Show",
                  FixedParams := [], Params := [("id", ["42"])] }) ∧
    RouterState.route ⟨[rHeadLit, rGetWild], (updateTreeAux [] [rHeadLit, rGetWild]).1⟩
        "HEAD" "/users/42" =
      .ok (some { Action := "", ControllerName := "B", MethodName := "X",
                  FixedParams := [], Params := [] }) ∧
    ({ Action := "", ControllerName := "A", MethodName := "Show",
       FixedParams := [], Params := [("id", ["42"])] } : RouteMatch) ≠
      { Action := "", ControllerName := "B", MethodName := "X",
        FixedParams := [], Params := [] } :=
  ⟨rfl, rfl, rfl, by decide⟩

/-- C5 (amended): the tree build inserts every `GET` definition a second
time under the equivalent `HEAD` key pointing at the same route, and
when no other route shadows that copy — in particular for a router whose
only route is the GET route — the GET and HEAD forward lookups of any
request path return identical results (same action and parameters). -/
theorem C5_get_head_insertion (pd : List Char) (action rp : String)
    (fx : List String) (qd : List Char) :
    (∃ S, updateTreeAux [] [NewRoute "GET" (String.mk ('/' :: pd)) action rp fx] =
        ([(Seg.lit "GET".data :: S, NewRoute "GET" (String.mk ('/' :: pd)) action rp fx),
          (Seg.lit "HEAD".data :: S, NewRoute "GET" (String.mk ('/' :: pd)) action rp fx)],
          none)) ∧
    RouterState.route
        ⟨[NewRoute "GET" (String.mk ('/' :: pd)) action rp fx],
          (updateTreeAux [] [NewRoute "GET" (String.mk ('/' :: pd)) action rp fx]).1⟩
        "HEAD" (String.mk ('/' :: qd)) =
      RouterState.route
        ⟨[NewRoute "GET" (String.mk ('/' :: pd)) action rp fx],
          (updateTreeAux [] [NewRoute "GET" (String.mk ('/' :: pd)) action rp fx]).1⟩
        "GET" (String.mk ('/' :: qd)) := by
  set r := NewRoute "GET" (String.mk ('/' :: pd)) action rp fx with hr
  set T := (splitSep '/' pd).map segOf with hT
  have hgu : goToUpper "GET" = "GET" := rfl
  have hMe : r.Method = "GET" := by rw [hr, NewRoute_Method, hgu]
  have hPa : r.Path = String.mk ('/' :: pd) := by rw [hr, NewRoute_Path]
  have hTP : r.TreePath = treePath "GET" (String.mk ('/' :: pd)) := by
    rw [hr, NewRoute_TreePath, hgu]
  have hsegG : parseSegs (treePath "GET" (String.mk ('/' :: pd))) =
      Seg.lit "GET".data :: T := by
    unfold parseSegs
    rw [splitPath_treePath "GET" (by decide) (by decide) pd]
    rw [List.map_cons, hT]
    congr 1
  have hsegH : parseSegs (treePath "HEAD" (String.mk ('/' :: pd))) =
      Seg.lit "HEAD".data :: T := by
    unfold parseSegs
    rw [splitPath_treePath "HEAD" (by decide) (by decide) pd]
    rw [List.map_cons, hT]
    congr 1
  have hshape : sameShape (Seg.lit "GET".data :: T) (Seg.lit "HEAD".data :: T) = false := by
    have hd : decide ("GET".data = "HEAD".data) = false := by decide
    simp [sameShape, hd]
  have hA1 : treeAdd [] r.TreePath r = some [(Seg.lit "GET".data :: T, r)] := by
    rw [hTP]
    unfold treeAdd
    rw [hsegG]
    simp
  have hA2 : treeAdd [(Seg.lit "GET".data :: T, r)]
      (treePath "HEAD" (String.mk ('/' :: pd))) r =
      some [(Seg.lit "GET".data :: T, r), (Seg.lit "HEAD".data :: T, r)] := by
    unfold treeAdd
    rw [hsegH]
    simp [hshape]
  have hUT : updateTreeAux [] [r] =
      ([(Seg.lit "GET".data :: T, r), (Seg.lit "HEAD".data :: T, r)], none) := by
    show updateTreeAux [] (r :: []) = _
    simp only [updateTreeAux, hA1, hMe, hPa, hA2, if_true]
  refine ⟨⟨T, hUT⟩, ?_⟩
  have htree : (updateTreeAux [] [r]).1 =
      [(Seg.lit "GET".data :: T, r), (Seg.lit "HEAD".data :: T, r)] := by rw [hUT]
  unfold RouterState.route
  congr 1
  show treeFind (((updateTreeAux [] [r]).1).map (fun e => (e.1, ([], e.2))))
      (splitPath (treePath "HEAD" (String.mk ('/' :: qd)))) =
    treeFind (((updateTreeAux [] [r]).1).map (fun e => (e.1, ([], e.2))))
      (splitPath (treePath "GET" (String.mk ('/' :: qd))))
  rw [htree]
  rw [splitPath_treePath "HEAD" (by decide) (by decide) qd]
  rw [splitPath_treePath "GET" (by decide) (by decide) qd]
  show treeFind [(Seg.lit "GET".data :: T, ([], r)), (Seg.lit "HEAD".data :: T, ([], r))]
      ("HEAD".data :: splitSep '/' qd) =
    treeFind [(Seg.lit "GET".data :: T, ([], r)), (Seg.lit "HEAD".data :: T, ([], r))]
      ("GET".data :: splitSep '/' qd)
  rw [treeFind_pair_second "GET".data "HEAD".data T r (splitSep '/' qd) (by decide)]
  rw [treeFind_pair_first "GET".data "HEAD".data T r (splitSep '/' qd) (by decide)]

/-! ## Claim C1 -/

/-- C1 counterexample: a loaded router serving `GET /old`, refreshed
with a document that parses but fails the tree build (a duplicate
route), returns an error yet is left with a different route list and a
partially built tree: `route("GET", "/old")` no longer matches. -/
theorem C1_counterexample_partial_refresh :
    (RouterState.refresh csAll menv0 "conf/routes" "c" docBad router0).2.isSome = true ∧
    RouterState.route (RouterState.refresh csAll menv0 "conf/routes" "c" docBad router0).1
        "GET" "/old" ≠ RouterState.route router0 "GET" "/old" ∧
    (RouterState.refresh csAll menv0 "conf/routes" "c" docBad router0).1.Routes ≠
      router0.Routes := by
  refine ⟨rfl, ?_, ?_⟩
  · intro h
    rw [show RouterState.route
        (RouterState.refresh csAll menv0 "conf/routes" "c" docBad router0).1
        "GET" "/old" = .ok none from rfl] at h
    rw [show RouterState.route router0 "GET" "/old" =
        .ok (some { Action := "", ControllerName := "A", MethodName := "Old",
                    FixedParams := [], Params := [] }) from rfl] at h
    exact absurd h (by decide)
  · intro h
    rw [show (RouterState.refresh csAll menv0 "conf/routes" "c" docBad router0).1.Routes =
        [rPing, rPing] from rfl] at h
    rw [show router0.Routes = [rOld] from rfl] at h
    exact absurd h (by decide)

/-- C1 (amended): when `refresh()` fails with a parse or validation
error, the match tree is untouched — `route()` behaves identically to
before — but the route list has been reset to the empty (nil) list and
the error is returned; when it fails with a tree-build error the route
list is the newly parsed one and the tree is the partially built new
tree, so a partially applied refresh is observable. -/
theorem C1_refresh_not_atomic :
    (∀ (cs : CtrlReg) (menv : ModuleEnv) (rp ct : String) (doc : Doc)
        (router : RouterState) (e : PErr),
        parseRoutesList cs menv rp "" ct true doc = .error e →
        RouterState.refresh cs menv rp ct doc router =
          ({ router with Routes := [] }, some e)) ∧
    (∀ (router : RouterState) (m p : String),
        RouterState.route { Routes := [], Tree := router.Tree } m p =
          RouterState.route router m p) ∧
    ((RouterState.refresh csAll menv0 "conf/routes" "c" docBad router0).2.isSome = true ∧
      (RouterState.refresh csAll menv0 "conf/routes" "c" docBad router0).1.Routes =
        [rPing, rPing] ∧
      RouterState.route
          (RouterState.refresh csAll menv0 "conf/routes" "c" docBad router0).1
          "GET" "/old" = .ok none ∧
      RouterState.route router0 "GET" "/old" =
        .ok (some { Action := "", ControllerName := "A", MethodName := "Old",
                    FixedParams := [], Params := [] })) := by
  refine ⟨?_, ?_, rfl, rfl, rfl, rfl⟩
  · intro cs menv rp ct doc router e h
    unfold RouterState.refresh
    rw [h]
  · intro router m p
    rfl

/-- C1 witness: the parse-error branch applied at a concrete failing
document over a loaded router. -/
theorem C1_refresh_not_atomic_witness :
    RouterState.refresh csAll menv0 "conf/routes" "c" [some eNoAction] router0 =
      ({ router0 with Routes := [] },
        some (.rerr (routeError "Missing required route option \"action\""
          "conf/routes" "c" 0))) :=
  C1_refresh_not_atomic.1 csAll menv0 "conf/routes" "c" [some eNoAction] router0
    (.rerr (routeError "Missing required route option \"action\"" "conf/routes" "c" 0))
    rfl

end Revel
